import Mathlib

/-! # toyothack: decoding of Toyota CAN frames

A shallow embedding of `toyothack.c` and proofs about it.

* C integers are `Int`/`Nat` values with explicit conversions (`toI32`, `toU16`, ...).
* `struct can_frame` is a record of the identifier, the length code and the eight
  data bytes (`__u8 data[8]`), each byte a `Nat` below 256.
* `union toyoframe` overlays packed structs on `can_frame.data`; a field access is a
  load at the field's byte offset, in the byte order of the host.
* The curses calls are collected in a trace of `Curses` operations.
* `printf` formatting is an interpreter of the format strings that appear in the source.
-/

namespace Toyothack

/-! ## C integer conversions -/

/-- Conversion to `unsigned char`. -/
def toU8 (x : Int) : Int := x % 256

/-- Conversion to `signed char`. -/
def toI8 (x : Int) : Int := if x % 256 < 128 then x % 256 else x % 256 - 256

/-- Conversion to `unsigned short` (`uint16_t`). -/
def toU16 (x : Int) : Int := x % 65536

/-- Conversion to `short` (`int16_t`). -/
def toI16 (x : Int) : Int := if x % 65536 < 32768 then x % 65536 else x % 65536 - 65536

/-- Conversion to `unsigned int` (32 bits). -/
def toU32 (x : Int) : Int := x % 4294967296

/-- Conversion to `int` (32 bits, two's complement wrap as done by gcc). -/
def toI32 (x : Int) : Int :=
  if x % 4294967296 < 2147483648 then x % 4294967296 else x % 4294967296 - 4294967296

/-! ## Frames and the overlay of `union toyoframe` -/

/-- The `struct can_frame` of `linux/can.h`: `can_id` is a 32 bit word, `can_dlc` the
payload length and `data` the eight payload bytes. -/
structure can_frame where
  can_id : Nat
  can_dlc : Nat
  data : List Nat
deriving DecidableEq, Repr

/-- Byte order of the host the program runs on. -/
inductive Endian where
  | little
  | big
deriving DecidableEq, Repr

/-- Load of a `uint8_t` field at byte offset `off`. -/
def ld_u8 (data : List Nat) (off : Nat) : Int := (data.getD off 0 : Nat)

/-- Load of an `int8_t` field at byte offset `off`. -/
def ld_i8 (data : List Nat) (off : Nat) : Int := toI8 (ld_u8 data off)

/-- Load of a `uint16_t` field of a packed struct at byte offset `off`, in host order. -/
def ld_u16 (host : Endian) (data : List Nat) (off : Nat) : Int :=
  match host with
  | Endian.little => ld_u8 data off + 256 * ld_u8 data (off + 1)
  | Endian.big => 256 * ld_u8 data off + ld_u8 data (off + 1)

/-- Load of an `int16_t` field of a packed struct at byte offset `off`, in host order. -/
def ld_i16 (host : Endian) (data : List Nat) (off : Nat) : Int := toI16 (ld_u16 host data off)

/-- The byte swap `__bswap_16` on a 16 bit value. -/
def bswap_16 (x : Int) : Int := (x / 256) % 256 + 256 * (x % 256)

/-- The macro `be16toh` of `endian.h`: its argument is converted to `uint16_t` and
byte-swapped on a little-endian host; the result is a `uint16_t`. -/
def be16toh (host : Endian) (x : Int) : Int :=
  match host with
  | Endian.little => bswap_16 (toU16 x)
  | Endian.big => toU16 x

/-! ## Frame identifiers -/

def TOY_WHEEL_SPEED_A : Nat := 0x0b0
def TOY_WHEEL_SPEED_B : Nat := 0x0b2
def TOY_UNK_B4 : Nat := 0x0b4
def TOY_BRAKE : Nat := 0x224
def TOY_THROTTLE : Nat := 0x2c1
def TOY_ENGINE : Nat := 0x2c4
def TOY_FUEL_USAGE : Nat := 0x398

def UNKNOWN_COUNT : Nat := 1024

/-! ## printf -/

/-- An argument of a variadic call after the default argument promotions. -/
inductive Arg where
  | int (v : Int)
  | str (s : String)
deriving DecidableEq, Repr

/-- A conversion specification while it is being read: the `0` flag, the minimum field
width and the number of `h` length modifiers. -/
structure Directive where
  zero : Bool
  width : Nat
  h : Nat
deriving DecidableEq, Repr

/-- Decimal digits of an integer, with a leading minus sign when negative. -/
def decimal (v : Int) : List Char :=
  if v < 0 then '-' :: Nat.toDigits 10 v.natAbs else Nat.toDigits 10 v.natAbs

/-- A signed conversion (`%d`): the field is padded on the left to `width`, with blanks
before the sign or, under the `0` flag, with zeros after the sign. -/
def fmt_signed (zero : Bool) (width : Nat) (v : Int) : List Char :=
  if zero then
    if v < 0 then
      '-' :: (List.replicate (width - 1 - (Nat.toDigits 10 v.natAbs).length) '0'
        ++ Nat.toDigits 10 v.natAbs)
    else
      List.replicate (width - (Nat.toDigits 10 v.natAbs).length) '0'
        ++ Nat.toDigits 10 v.natAbs
  else
    List.replicate (width - (decimal v).length) ' ' ++ decimal v

/-- An unsigned conversion (`%u`, `%x`) in the given base, padded on the left to `width`. -/
def fmt_unsigned (base : Nat) (zero : Bool) (width : Nat) (v : Int) : List Char :=
  List.replicate (width - (Nat.toDigits base v.toNat).length) (if zero then '0' else ' ')
    ++ Nat.toDigits base v.toNat

/-- The value a signed conversion prints, given the number of `h` modifiers. -/
def conv_signed (h : Nat) (v : Int) : Int :=
  match h with
  | 0 => toI32 v
  | 1 => toI16 v
  | _ => toI8 v

/-- The value an unsigned conversion prints, given the number of `h` modifiers. -/
def conv_unsigned (h : Nat) (v : Int) : Int :=
  match h with
  | 0 => toU32 v
  | 1 => toU16 v
  | _ => toU8 v

/-- The formatting loop of `printf` over the characters of the format: `none` while
copying ordinary characters, `some d` inside a conversion specification. -/
def vprintf : Option Directive → List Char → List Arg → List Char
  | _, [], _ => []
  | none, c :: cs, args =>
    if c = '%' then vprintf (some ⟨false, 0, 0⟩) cs args
    else c :: vprintf none cs args
  | some d, c :: cs, args =>
    if c = '0' ∧ d.width = 0 ∧ d.h = 0 then vprintf (some ⟨true, d.width, d.h⟩) cs args
    else if c.isDigit ∧ d.h = 0 then
      vprintf (some ⟨d.zero, d.width * 10 + (c.toNat - 48), d.h⟩) cs args
    else if c = 'h' then vprintf (some ⟨d.zero, d.width, d.h + 1⟩) cs args
    else if c = '%' then '%' :: vprintf none cs args
    else
      match args with
      | [] => []
      | Arg.int v :: rest =>
        if c = 'd' ∨ c = 'i' then
          fmt_signed d.zero d.width (conv_signed d.h v) ++ vprintf none cs rest
        else if c = 'u' then
          fmt_unsigned 10 d.zero d.width (conv_unsigned d.h v) ++ vprintf none cs rest
        else if c = 'x' then
          fmt_unsigned 16 d.zero d.width (conv_unsigned d.h v) ++ vprintf none cs rest
        else []
      | Arg.str s :: rest =>
        if c = 's' then
          List.replicate (d.width - s.length) ' ' ++ s.data ++ vprintf none cs rest
        else []

/-- The text `printf(fmt, args...)` produces. -/
def printf (fmt : String) (args : List Arg) : String :=
  String.mk (vprintf none fmt.data args)

/-! ## The curses trace -/

/-- The curses calls the program makes. -/
inductive Curses where
  | move (y x : Int)
  | clrtoeol
  | mvprintw (y x : Int) (text : String)
  | printw (text : String)
  | refresh
deriving DecidableEq, Repr

/-! ## unknown_frame -/

/-- The first loop of `unknown_frame`, from index `i` with `fuel` iterations left:
the index at which it stops. -/
def scan_from (unknown : List Int) (id : Int) : Nat → Nat → Nat
  | 0, i => i
  | fuel + 1, i =>
    if unknown.getD i 0 = 0 ∨ unknown.getD i 0 = id then i
    else scan_from unknown id fuel (i + 1)

/-- The loop `for (i = 0; i < UNKNOWN_COUNT; i++) if (unknown[i] == 0 || unknown[i] == id) break;`. -/
def scan (unknown : List Int) (id : Int) : Nat := scan_from unknown id UNKNOWN_COUNT 0

/-- The second loop of `unknown_frame`, from index `i` with `fuel` iterations left:
the `printw` calls it makes and the index at which it stops. -/
def print_from (unknown : List Int) : Nat → Nat → List Curses × Nat
  | 0, i => ([], i)
  | fuel + 1, i =>
    if unknown.getD i 0 = 0 then ([], i)
    else
      (Curses.printw (printf " %02x" [Arg.int (unknown.getD i 0)])
        :: (print_from unknown fuel (i + 1)).1, (print_from unknown fuel (i + 1)).2)

/-- The function `unknown_frame`: the array `unknown` after the call and the curses
calls made. `LINES` is the height of the terminal. -/
def unknown_frame (LINES : Int) (unknown : List Int) (id : Int) : List Int × List Curses :=
  if scan unknown id = UNKNOWN_COUNT then (unknown, [])
  else
    (unknown.set (scan unknown id) id,
      [Curses.move (LINES - 3) 1, Curses.clrtoeol, Curses.mvprintw (LINES - 3) 1 (printf "unk:" [])]
        ++ (print_from (unknown.set (scan unknown id) id) UNKNOWN_COUNT 0).1
        ++ [Curses.printw (printf " (%d)"
              [Arg.int (print_from (unknown.set (scan unknown id) id) UNKNOWN_COUNT 0).2])])

/-! ## process_one -/

/-- The function `process_one`: the array `unknown` after the call and the curses calls
made, for a frame `frm` on a host of byte order `host` and a terminal of `LINES` rows. -/
def process_one (host : Endian) (LINES : Int) (unknown : List Int) (frm : can_frame) :
    List Int × List Curses :=
  if frm.can_id = TOY_WHEEL_SPEED_A ∨ frm.can_id = TOY_WHEEL_SPEED_B then
    let i : Int := if frm.can_id = TOY_WHEEL_SPEED_A then 1 else 2
    (unknown,
      [Curses.move i 1, Curses.clrtoeol,
       Curses.mvprintw i 1 (printf "wheel: a=%5d b=%5d (delta=%5d) flags=%02x seq=%02x"
         [Arg.int (be16toh host (ld_u16 host frm.data 0)),
          Arg.int (be16toh host (ld_u16 host frm.data 2)),
          Arg.int (toI32 (be16toh host (ld_u16 host frm.data 0)
            - be16toh host (ld_u16 host frm.data 2))),
          Arg.int (ld_u8 frm.data 4),
          Arg.int (ld_u8 frm.data 5)]),
       Curses.refresh])
  else if frm.can_id = TOY_UNK_B4 then
    (unknown,
      [Curses.move 3 1, Curses.clrtoeol,
       Curses.mvprintw 3 1 (printf "unk_b4: distance_a=%3d speed=%5d distance_b=%3d"
         [Arg.int (ld_u8 frm.data 4),
          Arg.int (be16toh host (ld_u16 host frm.data 5)),
          Arg.int (ld_u8 frm.data 7)]),
       Curses.refresh])
  else if frm.can_id = TOY_BRAKE then
    (unknown,
      [Curses.move 4 1, Curses.clrtoeol,
       Curses.mvprintw 4 1 (printf "brake: flags=%02x [%s]"
         [Arg.int (ld_u8 frm.data 0),
          Arg.str (if ld_u8 frm.data 0 ≠ 0 then "ON" else "  ")]),
       Curses.refresh])
  else if frm.can_id = TOY_THROTTLE then
    (unknown,
      [Curses.move 5 1, Curses.clrtoeol,
       Curses.mvprintw 5 1
         (printf "throttle: flags0=%02x unk0=%5hd unk1=%5hd, unk2=%03hhd throttle=%4hu"
         [Arg.int (ld_u8 frm.data 0),
          Arg.int (be16toh host (ld_i16 host frm.data 1)),
          Arg.int (be16toh host (ld_i16 host frm.data 3)),
          Arg.int (ld_u8 frm.data 5),
          Arg.int (be16toh host (ld_i16 host frm.data 6))]),
       Curses.refresh])
  else if frm.can_id = TOY_ENGINE then
    (unknown,
      [Curses.move 6 1, Curses.clrtoeol,
       Curses.mvprintw 6 1 (printf "engine: rpm=%5hd unk0=%3d unk1=%3d, unk2=%3hhd"
         [Arg.int (be16toh host (ld_u16 host frm.data 0)),
          Arg.int (ld_u8 frm.data 3),
          Arg.int (ld_u8 frm.data 6),
          Arg.int (ld_i8 frm.data 7)]),
       Curses.refresh])
  else if frm.can_id = TOY_FUEL_USAGE then
    (unknown,
      [Curses.move 7 1, Curses.clrtoeol,
       Curses.mvprintw 7 1 (printf "fuel_usage: %5hd"
         [Arg.int (be16toh host (ld_i16 host frm.data 0))]),
       Curses.refresh])
  else
    ((unknown_frame LINES unknown (toI32 frm.can_id)).1,
      (unknown_frame LINES unknown (toI32 frm.can_id)).2 ++ [Curses.refresh])

/-- The array `unknown` after `memset(unknown, 0, sizeof(unknown))` in `main`. -/
def unknown_init : List Int := List.replicate UNKNOWN_COUNT 0

/-! ## Reading the trace and the expected text of the lines -/

/-- The identifiers that have an entry in the `switch` of `process_one`. -/
def known_id (id : Nat) : Prop :=
  id = 0x0b0 ∨ id = 0x0b2 ∨ id = 0x0b4 ∨ id = 0x224 ∨ id = 0x2c1 ∨ id = 0x2c4 ∨ id = 0x398

instance (id : Nat) : Decidable (known_id id) := by unfold known_id; infer_instance

/-- The screen row of the line of each message family. -/
def family_slot (id : Nat) : Int :=
  if id = 0x0b0 then 1 else if id = 0x0b2 then 2 else if id = 0x0b4 then 3
  else if id = 0x224 then 4 else if id = 0x2c1 then 5 else if id = 0x2c4 then 6 else 7

/-- The payload length each layout needs, as the specification lists it. -/
def required_length (id : Nat) : Nat :=
  if id = 0x0b0 ∨ id = 0x0b2 then 6 else if id = 0x398 then 2 else 8

/-- The rows at which a trace starts a line with `mvprintw`. -/
def render_rows : List Curses → List Int
  | [] => []
  | Curses.mvprintw y _ _ :: rest => y :: render_rows rest
  | _ :: rest => render_rows rest

/-- A text `s` right-aligned in a field of `w` columns. -/
def right_align (w : Nat) (s : List Char) : List Char := List.replicate (w - s.length) ' ' ++ s

/-- Two lower-case hexadecimal digits of a byte. -/
def hex2 (n : Nat) : List Char := [Nat.digitChar (n / 16), Nat.digitChar (n % 16)]

/-- The wheel line as the specification words it. -/
def wheel_line (a b delta : Int) (flags seq : Nat) : String :=
  String.mk ("wheel: a=".data ++ right_align 5 (decimal a) ++ " b=".data
    ++ right_align 5 (decimal b) ++ " (delta=".data ++ right_align 5 (decimal delta)
    ++ ") flags=".data ++ hex2 flags ++ " seq=".data ++ hex2 seq)

/-- The brake line as the specification words it. -/
def brake_line (flags : Nat) : String :=
  String.mk ("brake: flags=".data ++ hex2 flags ++ " ".data
    ++ (if flags = 0 then "[  ]".data else "[ON]".data))

/-- The value of a signed 16 bit big-endian field with high byte `hi` and low byte `lo`. -/
def be_i16 (hi lo : Nat) : Int :=
  if 256 * hi + lo < 32768 then (256 * hi + lo : Nat) else (256 * hi + lo : Nat) - 65536

/-- The fuel line as the specification words it. -/
def fuel_line (v : Int) : String :=
  String.mk ("fuel_usage: ".data ++ right_align 5 (decimal v))


/-! ## The tracker of unknown identifiers, as the specification describes it -/

/-- The identifiers tracked in the array: the entries before the first empty slot. -/
def tracked (unknown : List Int) : List Int :=
  (unknown.take UNKNOWN_COUNT).takeWhile (fun x => decide (x ≠ 0))

/-- The array that holds the identifiers `t` in its first slots and is empty after them. -/
def slots (t : List Int) : List Int := t ++ List.replicate (UNKNOWN_COUNT - t.length) 0

/-- The curses calls that draw the summary of the identifiers `t`. -/
def summary (LINES : Int) (t : List Int) : List Curses :=
  [Curses.move (LINES - 3) 1, Curses.clrtoeol, Curses.mvprintw (LINES - 3) 1 "unk:"]
    ++ t.map (fun id => Curses.printw (printf " %02x" [Arg.int id]))
    ++ [Curses.printw (printf " (%d)" [Arg.int t.length])]

/-- The tracked list after an identifier is observed: a new nonzero identifier is
appended while there is room. -/
def observe (t : List Int) (id : Int) : List Int :=
  if id ∈ t ∨ id = 0 ∨ UNKNOWN_COUNT ≤ t.length then t else t ++ [id]

/-- The states of the array `unknown` the program can be in: the one `main` sets up, and
those after further calls of `unknown_frame`. -/
inductive Reachable : List Int → Prop where
  | init : Reachable unknown_init
  | step (LINES : Int) (unknown : List Int) (id : Int) :
      Reachable unknown → Reachable (unknown_frame LINES unknown id).1

/-- The array `unknown` after the frames `frames` were processed in order, from the
state `main` sets up. -/
def run (host : Endian) (LINES : Int) (frames : List can_frame) : List Int :=
  frames.foldl (fun unknown frm => (process_one host LINES unknown frm).1) unknown_init

/-- The array `unknown` after `unknown_frame` was called on the identifiers `ids` in
order, from the state `unknown`. -/
def observe_all (LINES : Int) (unknown : List Int) (ids : List Int) : List Int :=
  ids.foldl (fun u id => (unknown_frame LINES u id).1) unknown

/-- The identifiers that `process_one` hands to `unknown_frame`, in the order of the frames. -/
def unknown_ids (frames : List can_frame) : List Int :=
  (frames.filter (fun frm => decide (¬ known_id frm.can_id))).map (fun frm => toI32 frm.can_id)

/-- The nonzero identifiers of a sequence in the order of their first occurrence. -/
def first_seen : List Int → List Int
  | [] => []
  | id :: ids =>
    if id = 0 then first_seen ids
    else id :: (first_seen ids).filter (fun x => decide (x ≠ id))

/-! ## The text of the summary and of the remaining lines, as the specification words them -/

/-- An identifier in lower-case hexadecimal with at least two digits; an `int` is read
as the 32 bit unsigned word it is stored as. -/
def hex_id (id : Int) : List Char :=
  List.replicate (2 - (Nat.toDigits 16 (id % 4294967296).toNat).length) '0'
    ++ Nat.toDigits 16 (id % 4294967296).toNat

/-- One blank and the identifier in hexadecimal, for each identifier of the list. -/
def ids_text : List Int → List Char
  | [] => []
  | id :: ids => ' ' :: (hex_id id ++ ids_text ids)

/-- The summary line of the tracked identifiers `t` as the specification words it. -/
def summary_text (t : List Int) : String :=
  String.mk ("unk:".data ++ ids_text t ++ " (".data ++ decimal t.length ++ ")".data)

/-- The characters a trace prints, in order. -/
def screen_text : List Curses → List Char
  | [] => []
  | Curses.mvprintw _ _ text :: rest => text.data ++ screen_text rest
  | Curses.printw text :: rest => text.data ++ screen_text rest
  | _ :: rest => screen_text rest

/-- The secondary line as the specification words it. -/
def unkb4_line (distance_a speed distance_b : Int) : String :=
  String.mk ("unk_b4: distance_a=".data ++ right_align 3 (decimal distance_a)
    ++ " speed=".data ++ right_align 5 (decimal speed)
    ++ " distance_b=".data ++ right_align 3 (decimal distance_b))

/-- The identifiers of `enum frame_ids`, in the order of the `switch` of `process_one`. -/
def family_ids : List Nat := [0x0b0, 0x0b2, 0x0b4, 0x224, 0x2c1, 0x2c4, 0x398]

/-! ## The screen: which rows a trace clears or writes -/

/-- A position lies in `stdscr`, a window of `LINES` rows and `COLS` columns. -/
def in_window (LINES COLS y x : Int) : Prop := 0 ≤ y ∧ y < LINES ∧ 0 ≤ x ∧ x < COLS

instance (LINES COLS y x : Int) : Decidable (in_window LINES COLS y x) := by
  unfold in_window; infer_instance

/-- Writing a text from the cursor `(y, x)`: each character is put at the cursor, which
then steps right, wraps to the start of the next row at the right margin, and at the
bottom right corner stays, with the rest of the text dropped (no scrolling). Returns the
rows written and the cursor afterwards. -/
def put_text (LINES COLS : Int) : Int → Int → List Char → List Int × Int × Int
  | y, x, [] => ([], y, x)
  | y, x, _ :: cs =>
    if x + 1 < COLS then
      (y :: (put_text LINES COLS y (x + 1) cs).1, (put_text LINES COLS y (x + 1) cs).2)
    else if y + 1 < LINES then
      (y :: (put_text LINES COLS (y + 1) 0 cs).1, (put_text LINES COLS (y + 1) 0 cs).2)
    else ([y], y, x)

/-- The rows a trace clears or writes on a screen of `LINES` rows and `COLS` columns,
starting with the cursor at `(y, x)`, and the cursor afterwards. A `move` outside the
window fails and leaves the cursor; `mvprintw` prints only when its move succeeds;
`clrtoeol` and `printw` act at the cursor. -/
def touched (LINES COLS : Int) : Int → Int → List Curses → List Int × Int × Int
  | y, x, [] => ([], y, x)
  | y, x, Curses.move y1 x1 :: ops =>
    if in_window LINES COLS y1 x1 then touched LINES COLS y1 x1 ops
    else touched LINES COLS y x ops
  | y, x, Curses.clrtoeol :: ops =>
    (y :: (touched LINES COLS y x ops).1, (touched LINES COLS y x ops).2)
  | y, x, Curses.mvprintw y1 x1 text :: ops =>
    if in_window LINES COLS y1 x1 then
      ((put_text LINES COLS y1 x1 text.data).1
          ++ (touched LINES COLS (put_text LINES COLS y1 x1 text.data).2.1
                (put_text LINES COLS y1 x1 text.data).2.2 ops).1,
        (touched LINES COLS (put_text LINES COLS y1 x1 text.data).2.1
          (put_text LINES COLS y1 x1 text.data).2.2 ops).2)
    else touched LINES COLS y x ops
  | y, x, Curses.printw text :: ops =>
    ((put_text LINES COLS y x text.data).1
        ++ (touched LINES COLS (put_text LINES COLS y x text.data).2.1
              (put_text LINES COLS y x text.data).2.2 ops).1,
      (touched LINES COLS (put_text LINES COLS y x text.data).2.1
        (put_text LINES COLS y x text.data).2.2 ops).2)
  | y, x, Curses.refresh :: ops => touched LINES COLS y x ops

/-- The lists of identifiers the array can track: nonzero, without repetition, and no
more than the array has slots. -/
def well_formed (t : List Int) : Prop :=
  (∀ x ∈ t, x ≠ 0) ∧ t.Nodup ∧ t.length ≤ UNKNOWN_COUNT

set_option maxRecDepth 100000

/-! ## Conversions and loads -/

theorem fmt_02x_byte (d : Nat) (h : d < 256) :
    fmt_unsigned 16 true 2 (conv_unsigned 0 (d : Int)) = hex2 d := by
  have key : ∀ d : Fin 256, fmt_unsigned 16 true 2 (conv_unsigned 0 ((d : Nat) : Int)) = hex2 d := by
    decide
  exact key ⟨d, h⟩

theorem fmt_signed_blank (w : Nat) (v : Int) :
    fmt_signed false w v = right_align w (decimal v) := by
  simp [fmt_signed, right_align]

theorem toI32_of_range (v : Int) (h1 : -2147483648 ≤ v) (h2 : v < 2147483648) : toI32 v = v := by
  unfold toI32; omega

theorem toI16_of_range (v : Int) (h1 : -32768 ≤ v) (h2 : v < 32768) : toI16 v = v := by
  unfold toI16; omega

theorem be16toh_ld_u16 (host : Endian) (data : List Nat) (off : Nat)
    (h0 : data.getD off 0 < 256) (h1 : data.getD (off + 1) 0 < 256) :
    be16toh host (ld_u16 host data off)
      = 256 * (data.getD off 0 : Nat) + (data.getD (off + 1) 0 : Nat) := by
  cases host <;> simp only [be16toh, ld_u16, ld_u8, bswap_16, toU16] <;> omega

theorem be16toh_ld_i16 (host : Endian) (data : List Nat) (off : Nat)
    (h0 : data.getD off 0 < 256) (h1 : data.getD (off + 1) 0 < 256) :
    be16toh host (ld_i16 host data off)
      = 256 * (data.getD off 0 : Nat) + (data.getD (off + 1) 0 : Nat) := by
  cases host <;> simp only [be16toh, ld_i16, ld_u16, ld_u8, bswap_16, toU16, toI16] <;> omega

/-- C1: for identifier 0x0b0 or 0x0b2 and payload bytes d0..d5, `process_one` clears the
row of the channel and prints the wheel line with a = 256*d0 + d1 and b = 256*d2 + d3
(big-endian, unsigned), the difference a - b, all three in decimal right-aligned to
width 5, and flags = d4 and seq = d5 as two lower-case hexadecimal digits. -/
theorem wheel_frame_rendered (host : Endian) (LINES : Int) (unknown : List Int)
    (id dlc d0 d1 d2 d3 d4 d5 : Nat) (rest : List Nat)
    (hid : id = 0x0b0 ∨ id = 0x0b2)
    (h0 : d0 < 256) (h1 : d1 < 256) (h2 : d2 < 256) (h3 : d3 < 256)
    (h4 : d4 < 256) (h5 : d5 < 256) :
    process_one host LINES unknown ⟨id, dlc, d0 :: d1 :: d2 :: d3 :: d4 :: d5 :: rest⟩ =
      (unknown,
        [Curses.move (family_slot id) 1, Curses.clrtoeol,
         Curses.mvprintw (family_slot id) 1
           (wheel_line (256 * d0 + d1) (256 * d2 + d3)
             ((256 * d0 + d1 : Int) - (256 * d2 + d3)) d4 d5),
         Curses.refresh]) := by
  have ha := be16toh_ld_u16 host (d0 :: d1 :: d2 :: d3 :: d4 :: d5 :: rest) 0
    (by simpa using h0) (by simpa using h1)
  have hb := be16toh_ld_u16 host (d0 :: d1 :: d2 :: d3 :: d4 :: d5 :: rest) 2
    (by simpa using h2) (by simpa using h3)
  simp only [List.getD_cons_zero, List.getD_cons_succ, zero_add] at ha hb
  have r1 : toI32 (256 * (d0 : Int) + d1) = 256 * (d0 : Int) + d1 :=
    toI32_of_range _ (by omega) (by omega)
  have r2 : toI32 (256 * (d2 : Int) + d3) = 256 * (d2 : Int) + d3 :=
    toI32_of_range _ (by omega) (by omega)
  have r3 : toI32 (256 * (d0 : Int) + d1 - (256 * (d2 : Int) + d3))
      = 256 * (d0 : Int) + d1 - (256 * (d2 : Int) + d3) :=
    toI32_of_range _ (by omega) (by omega)
  have f4 := fmt_02x_byte d4 h4
  have f5 := fmt_02x_byte d5 h5
  rcases hid with rfl | rfl <;>
    simp [process_one, TOY_WHEEL_SPEED_A, TOY_WHEEL_SPEED_B, family_slot, printf, vprintf,
      ha, hb, fmt_signed_blank, conv_signed, r1, r2, r3, ld_u8, f4, f5, wheel_line]

theorem wheel_frame_rendered_witness :
    process_one Endian.little 24 unknown_init ⟨0x0b0, 8, [0x01, 0x02, 0, 90, 0x1f, 7, 0, 0]⟩ =
      (unknown_init,
        [Curses.move 1 1, Curses.clrtoeol,
         Curses.mvprintw 1 1 "wheel: a=  258 b=   90 (delta=  168) flags=1f seq=07",
         Curses.refresh]) :=
  (wheel_frame_rendered Endian.little 24 unknown_init 0x0b0 8 0x01 0x02 0 90 0x1f 7 [0, 0]
    (by decide) (by decide) (by decide) (by decide) (by decide) (by decide) (by decide)).trans
    (by decide)

/-- C2: for a wheel-speed frame whose payload carries the unsigned 16 bit values a and b
in big-endian order, the rendered delta is the exact integer difference a - b, which lies
in [-65535, 65535]; it is not reduced modulo 2^16. -/
theorem wheel_delta_exact (host : Endian) (LINES : Int) (unknown : List Int)
    (id dlc a b d4 d5 : Nat) (rest : List Nat)
    (hid : id = 0x0b0 ∨ id = 0x0b2)
    (ha : a < 65536) (hb : b < 65536) (h4 : d4 < 256) (h5 : d5 < 256) :
    process_one host LINES unknown
        ⟨id, dlc, a / 256 :: a % 256 :: b / 256 :: b % 256 :: d4 :: d5 :: rest⟩ =
      (unknown,
        [Curses.move (family_slot id) 1, Curses.clrtoeol,
         Curses.mvprintw (family_slot id) 1 (wheel_line a b ((a : Int) - b) d4 d5),
         Curses.refresh])
    ∧ -65535 ≤ (a : Int) - b ∧ (a : Int) - b ≤ 65535 := by
  have ea := be16toh_ld_u16 host (a / 256 :: a % 256 :: b / 256 :: b % 256 :: d4 :: d5 :: rest) 0
    (by simp; omega) (by simp; omega)
  have eb := be16toh_ld_u16 host (a / 256 :: a % 256 :: b / 256 :: b % 256 :: d4 :: d5 :: rest) 2
    (by simp; omega) (by simp; omega)
  simp only [List.getD_cons_zero, List.getD_cons_succ, zero_add] at ea eb
  have ea' : be16toh host
      (ld_u16 host (a / 256 :: a % 256 :: b / 256 :: b % 256 :: d4 :: d5 :: rest) 0) = a := by
    rw [ea]; omega
  have eb' : be16toh host
      (ld_u16 host (a / 256 :: a % 256 :: b / 256 :: b % 256 :: d4 :: d5 :: rest) 2) = b := by
    rw [eb]; omega
  have r1 : toI32 (a : Int) = a := toI32_of_range _ (by omega) (by omega)
  have r2 : toI32 (b : Int) = b := toI32_of_range _ (by omega) (by omega)
  have r3 : toI32 ((a : Int) - b) = (a : Int) - b := toI32_of_range _ (by omega) (by omega)
  have f4 := fmt_02x_byte d4 h4
  have f5 := fmt_02x_byte d5 h5
  refine ⟨?_, by omega, by omega⟩
  rcases hid with rfl | rfl <;>
    simp [process_one, TOY_WHEEL_SPEED_A, TOY_WHEEL_SPEED_B, family_slot, printf, vprintf,
      ea', eb', fmt_signed_blank, conv_signed, r1, r2, r3, ld_u8, f4, f5, wheel_line]

theorem wheel_delta_exact_witness :
    (process_one Endian.big 24 unknown_init ⟨0x0b0, 6, [0, 100, 0, 90, 0, 0, 0, 0]⟩).2 =
        [Curses.move 1 1, Curses.clrtoeol,
         Curses.mvprintw 1 1 "wheel: a=  100 b=   90 (delta=   10) flags=00 seq=00",
         Curses.refresh]
    ∧ (process_one Endian.big 24 unknown_init ⟨0x0b2, 6, [0, 90, 0, 100, 0, 0, 0, 0]⟩).2 =
        [Curses.move 2 1, Curses.clrtoeol,
         Curses.mvprintw 2 1 "wheel: a=   90 b=  100 (delta=  -10) flags=00 seq=00",
         Curses.refresh] :=
  ⟨(congrArg Prod.snd (wheel_delta_exact Endian.big 24 unknown_init 0x0b0 6 100 90 0 0 [0, 0]
      (by decide) (by decide) (by decide) (by decide) (by decide)).1).trans (by decide),
   (congrArg Prod.snd (wheel_delta_exact Endian.big 24 unknown_init 0x0b2 6 90 100 0 0 [0, 0]
      (by decide) (by decide) (by decide) (by decide) (by decide)).1).trans (by decide)⟩

/-- C3, as the code behaves: `process_one` never looks at the payload length. For every
known identifier and every frame, whatever its `can_dlc` (also one below the length the
layout needs), the result is the one for any other `can_dlc`, the array of unknown
identifiers is untouched, and the line of the family is written to the family row. -/
theorem known_frame_rendered_whatever_length (host : Endian) (LINES : Int)
    (unknown : List Int) (frm : can_frame) (dlc : Nat) (hid : known_id frm.can_id) :
    process_one host LINES unknown ⟨frm.can_id, dlc, frm.data⟩
        = process_one host LINES unknown frm
    ∧ ∃ text, process_one host LINES unknown ⟨frm.can_id, dlc, frm.data⟩ =
        (unknown,
          [Curses.move (family_slot frm.can_id) 1, Curses.clrtoeol,
           Curses.mvprintw (family_slot frm.can_id) 1 text, Curses.refresh]) := by
  obtain ⟨id, n, data⟩ := frm
  simp only [known_id] at hid
  refine ⟨rfl, ?_⟩
  rcases hid with h | h | h | h | h | h | h <;> subst h <;>
    simp [process_one, TOY_WHEEL_SPEED_A, TOY_WHEEL_SPEED_B, TOY_UNK_B4, TOY_BRAKE,
      TOY_THROTTLE, TOY_ENGINE, TOY_FUEL_USAGE, family_slot]

theorem known_frame_rendered_whatever_length_witness :
    process_one Endian.little 24 unknown_init ⟨0x398, 0, [0, 10, 0, 0, 0, 0, 0, 0]⟩
        = process_one Endian.little 24 unknown_init ⟨0x398, 2, [0, 10, 0, 0, 0, 0, 0, 0]⟩
    ∧ ∃ text, process_one Endian.little 24 unknown_init ⟨0x398, 0, [0, 10, 0, 0, 0, 0, 0, 0]⟩ =
        (unknown_init,
          [Curses.move 7 1, Curses.clrtoeol, Curses.mvprintw 7 1 text, Curses.refresh]) :=
  known_frame_rendered_whatever_length Endian.little 24 unknown_init
    ⟨0x398, 2, [0, 10, 0, 0, 0, 0, 0, 0]⟩ 0 (by decide)

/-- C3 as stated fails: a brake frame (identifier 0x224, layout of 8 bytes) with a
payload of length zero is rendered to the brake row 4 all the same. -/
theorem truncated_brake_frame_rendered :
    (⟨0x224, 0, [0, 0, 0, 0, 0, 0, 0, 0]⟩ : can_frame).can_dlc < required_length 0x224
    ∧ family_slot 0x224 ∈
        render_rows (process_one Endian.little 24 unknown_init
          ⟨0x224, 0, [0, 0, 0, 0, 0, 0, 0, 0]⟩).2
    ∧ process_one Endian.little 24 unknown_init ⟨0x224, 0, [0, 0, 0, 0, 0, 0, 0, 0]⟩ =
        (unknown_init,
          [Curses.move 4 1, Curses.clrtoeol, Curses.mvprintw 4 1 "brake: flags=00 [  ]",
           Curses.refresh]) := by
  decide

/-- C9: for identifier 0x224 and a payload whose byte 0 is f, `process_one` clears the
brake row 4 and prints "brake: flags=" with f as two lower-case hexadecimal digits, a
blank, and "[ON]" when f is nonzero or "[  ]" when f = 0; the other bytes of the
payload play no part. -/
theorem brake_frame_rendered (host : Endian) (LINES : Int) (unknown : List Int)
    (dlc f : Nat) (rest : List Nat) (hf : f < 256) :
    process_one host LINES unknown ⟨0x224, dlc, f :: rest⟩ =
      (unknown,
        [Curses.move 4 1, Curses.clrtoeol, Curses.mvprintw 4 1 (brake_line f),
         Curses.refresh]) := by
  have f0 := fmt_02x_byte f hf
  by_cases hz : f = 0
  · subst hz
    simp [process_one, TOY_WHEEL_SPEED_A, TOY_WHEEL_SPEED_B, TOY_UNK_B4, TOY_BRAKE, printf,
      vprintf, ld_u8, brake_line]
    decide
  · simp [process_one, TOY_WHEEL_SPEED_A, TOY_WHEEL_SPEED_B, TOY_UNK_B4, TOY_BRAKE, printf,
      vprintf, ld_u8, f0, brake_line, hz]

theorem brake_frame_rendered_witness :
    process_one Endian.little 24 unknown_init ⟨0x224, 8, [0x01, 0, 0, 0, 0, 0, 0, 0]⟩ =
      (unknown_init,
        [Curses.move 4 1, Curses.clrtoeol, Curses.mvprintw 4 1 "brake: flags=01 [ON]",
         Curses.refresh]) :=
  (brake_frame_rendered Endian.little 24 unknown_init 8 0x01 [0, 0, 0, 0, 0, 0, 0]
    (by decide)).trans (by decide)

/-- C10: for identifier 0x398 and payload bytes d0, d1, `process_one` clears the fuel
row 7 and prints "fuel_usage: " followed by the decimal value, right-aligned to width 5,
of the signed 16 bit big-endian integer with high byte d0 and low byte d1, a value in
[-32768, 32767]. -/
theorem fuel_frame_rendered (host : Endian) (LINES : Int) (unknown : List Int)
    (dlc d0 d1 : Nat) (rest : List Nat) (h0 : d0 < 256) (h1 : d1 < 256) :
    process_one host LINES unknown ⟨0x398, dlc, d0 :: d1 :: rest⟩ =
      (unknown,
        [Curses.move 7 1, Curses.clrtoeol, Curses.mvprintw 7 1 (fuel_line (be_i16 d0 d1)),
         Curses.refresh])
    ∧ -32768 ≤ be_i16 d0 d1 ∧ be_i16 d0 d1 ≤ 32767 := by
  have e := be16toh_ld_i16 host (d0 :: d1 :: rest) 0 (by simpa using h0) (by simpa using h1)
  simp only [List.getD_cons_zero, List.getD_cons_succ, zero_add] at e
  have v : toI16 (256 * (d0 : Int) + d1) = be_i16 d0 d1 := by
    unfold toI16 be_i16; split_ifs <;> omega
  refine ⟨?_, by unfold be_i16; split_ifs <;> omega, by unfold be_i16; split_ifs <;> omega⟩
  simp [process_one, TOY_WHEEL_SPEED_A, TOY_WHEEL_SPEED_B, TOY_UNK_B4, TOY_BRAKE,
    TOY_THROTTLE, TOY_ENGINE, TOY_FUEL_USAGE, printf, vprintf, e, fmt_signed_blank,
    conv_signed, v, fuel_line]

theorem fuel_frame_rendered_witness :
    process_one Endian.little 24 unknown_init ⟨0x398, 2, [0x00, 0x0A, 0, 0, 0, 0, 0, 0]⟩ =
      (unknown_init,
        [Curses.move 7 1, Curses.clrtoeol, Curses.mvprintw 7 1 "fuel_usage:    10",
         Curses.refresh]) :=
  (fuel_frame_rendered Endian.little 24 unknown_init 2 0x00 0x0A [0, 0, 0, 0, 0, 0]
    (by decide) (by decide)).1.trans (by decide)

/-! ## The loops of unknown_frame -/

theorem scan_from_cons (x : Int) (s : List Int) (id : Int) (fuel i : Nat) :
    scan_from (x :: s) id fuel (i + 1) = scan_from s id fuel i + 1 := by
  induction fuel generalizing i with
  | zero => rfl
  | succ n ih =>
    simp only [scan_from, List.getD_cons_succ]
    split_ifs
    · rfl
    · exact ih (i + 1)

theorem scan_from_slots (t : List Int) (n : Nat) (id : Int) (fuel : Nat)
    (h0 : ∀ x ∈ t, x ≠ 0) (hlen : t.length ≤ fuel) :
    scan_from (t ++ List.replicate n 0) id fuel 0 = t.indexOf id := by
  induction t generalizing fuel with
  | nil =>
    cases fuel with
    | zero => rfl
    | succ f =>
      cases n <;> simp [scan_from, List.replicate]
  | cons x t ih =>
    cases fuel with
    | zero => simp at hlen
    | succ f =>
      have hx : x ≠ 0 := h0 x (List.mem_cons_self x t)
      have ht : ∀ y ∈ t, y ≠ 0 := fun y hy => h0 y (List.mem_cons_of_mem x hy)
      have hl : t.length ≤ f := by simpa using hlen
      by_cases hid : x = id
      · simp [scan_from, hid]
      · rw [List.indexOf_cons_ne _ hid]
        simp only [scan_from, List.cons_append, List.getD_cons_zero, hx, hid, or_self,
          if_false, zero_add]
        rw [scan_from_cons, ih f ht hl]

theorem print_from_cons (x : Int) (s : List Int) (fuel i : Nat) :
    print_from (x :: s) fuel (i + 1)
      = ((print_from s fuel i).1, (print_from s fuel i).2 + 1) := by
  induction fuel generalizing i with
  | zero => rfl
  | succ n ih =>
    simp only [print_from, List.getD_cons_succ]
    split_ifs
    · rfl
    · rw [ih (i + 1)]

theorem print_from_slots (t : List Int) (n : Nat) (fuel : Nat)
    (h0 : ∀ x ∈ t, x ≠ 0) (hlen : t.length ≤ fuel) :
    print_from (t ++ List.replicate n 0) fuel 0
      = (t.map (fun id => Curses.printw (printf " %02x" [Arg.int id])), t.length) := by
  induction t generalizing fuel with
  | nil =>
    cases fuel with
    | zero => rfl
    | succ f => cases n <;> simp [print_from, List.replicate]
  | cons x t ih =>
    cases fuel with
    | zero => simp at hlen
    | succ f =>
      have hx : x ≠ 0 := h0 x (List.mem_cons_self x t)
      have ht : ∀ y ∈ t, y ≠ 0 := fun y hy => h0 y (List.mem_cons_of_mem x hy)
      have hl : t.length ≤ f := by simpa using hlen
      simp only [print_from, List.cons_append, List.getD_cons_zero, hx, if_false, zero_add]
      rw [print_from_cons, ih f ht hl]
      simp

theorem set_indexOf_self (t : List Int) (id : Int) (h : id ∈ t) :
    t.set (t.indexOf id) id = t := by
  induction t with
  | nil => simp at h
  | cons x t ih =>
    by_cases hid : x = id
    · simp [hid]
    · rw [List.indexOf_cons_ne _ hid]
      have : id ∈ t := by
        rcases List.mem_cons.mp h with h | h
        · exact absurd h.symm hid
        · exact h
      simp [ih this]

theorem length_slots (t : List Int) (hlen : t.length ≤ UNKNOWN_COUNT) :
    (slots t).length = UNKNOWN_COUNT := by
  simp [slots]; omega

theorem tracked_slots (t : List Int) (h0 : ∀ x ∈ t, x ≠ 0) (hlen : t.length ≤ UNKNOWN_COUNT) :
    tracked (slots t) = t := by
  unfold tracked
  rw [List.take_of_length_le (by rw [length_slots t hlen])]
  unfold slots
  rw [List.takeWhile_append_of_pos (by simpa using h0)]
  cases (UNKNOWN_COUNT - t.length) <;> simp [List.replicate]

theorem scan_slots (t : List Int) (id : Int) (h0 : ∀ x ∈ t, x ≠ 0)
    (hlen : t.length ≤ UNKNOWN_COUNT) : scan (slots t) id = t.indexOf id :=
  scan_from_slots t _ id UNKNOWN_COUNT h0 hlen

theorem slots_set_new (t : List Int) (id : Int) (hlen : t.length < UNKNOWN_COUNT) :
    (slots t).set t.length id = slots (t ++ [id]) := by
  unfold slots
  rw [List.set_append_right _ _ (le_refl _)]
  obtain ⟨m, hm⟩ : ∃ m, UNKNOWN_COUNT - t.length = m + 1 := ⟨UNKNOWN_COUNT - t.length - 1, by omega⟩
  have hm' : UNKNOWN_COUNT - (t ++ [id]).length = m := by simp; omega
  rw [hm, hm']
  simp [List.replicate]

/-- What `unknown_frame` does on the array that holds the nonzero identifiers `t`. -/
theorem unknown_frame_slots (LINES : Int) (t : List Int) (id : Int)
    (h0 : ∀ x ∈ t, x ≠ 0) (hlen : t.length ≤ UNKNOWN_COUNT) :
    unknown_frame LINES (slots t) id =
      (slots (observe t id),
        if id ∉ t ∧ UNKNOWN_COUNT ≤ t.length then [] else summary LINES (observe t id)) := by
  unfold unknown_frame
  rw [scan_slots t id h0 hlen]
  by_cases hmem : id ∈ t
  · have hi : t.indexOf id < t.length := List.indexOf_lt_length.mpr hmem
    have hne : t.indexOf id ≠ UNKNOWN_COUNT := by omega
    have hset : (slots t).set (t.indexOf id) id = slots t := by
      unfold slots
      rw [List.set_append_left _ _ hi, set_indexOf_self t id hmem]
    have hobs : observe t id = t := by simp [observe, hmem]
    rw [if_neg hne, hset, hobs]
    have hp := print_from_slots t (UNKNOWN_COUNT - t.length) UNKNOWN_COUNT h0 hlen
    unfold slots
    rw [hp]
    simp [hmem, summary, printf, vprintf]
  · have hi : t.indexOf id = t.length := List.indexOf_eq_length.mpr hmem
    rw [hi]
    by_cases hfull : UNKNOWN_COUNT ≤ t.length
    · have : t.length = UNKNOWN_COUNT := le_antisymm hlen hfull
      simp [this, observe, hmem]
    · have hlt : t.length < UNKNOWN_COUNT := by omega
      have hne : t.length ≠ UNKNOWN_COUNT := by omega
      rw [if_neg hne, slots_set_new t id hlt]
      by_cases hz : id = 0
      · subst hz
        have hobs : observe t 0 = t := by simp [observe]
        have hs : slots (t ++ [0]) = slots t := by
          rw [← slots_set_new t 0 hlt]
          unfold slots
          rw [List.set_append_right _ _ (le_refl _)]
          obtain ⟨m, hm⟩ : ∃ m, UNKNOWN_COUNT - t.length = m + 1 :=
            ⟨UNKNOWN_COUNT - t.length - 1, by omega⟩
          rw [hm]
          simp [List.replicate]
        rw [hs, hobs]
        have hp := print_from_slots t (UNKNOWN_COUNT - t.length) UNKNOWN_COUNT h0 hlen
        unfold slots
        rw [hp]
        simp [hfull, summary, printf, vprintf]
      · have hobs : observe t id = t ++ [id] := by simp [observe, hmem, hz, hfull]
        have h0' : ∀ x ∈ t ++ [id], x ≠ 0 := by
          intro x hx
          rcases List.mem_append.mp hx with h | h
          · exact h0 x h
          · simpa using (List.mem_singleton.mp h) ▸ hz
        have hlen' : (t ++ [id]).length ≤ UNKNOWN_COUNT := by simp; omega
        have hp := print_from_slots (t ++ [id]) (UNKNOWN_COUNT - (t ++ [id]).length)
          UNKNOWN_COUNT h0' hlen'
        rw [hobs]
        unfold slots
        rw [hp]
        simp [hfull, summary, printf, vprintf]

/-! ## The invariant of the array -/

theorem observe_well_formed (t : List Int) (id : Int) (h : well_formed t) :
    well_formed (observe t id) := by
  obtain ⟨h0, hnd, hlen⟩ := h
  unfold observe
  split_ifs with hc
  · exact ⟨h0, hnd, hlen⟩
  · push_neg at hc
    obtain ⟨hmem, hz, hroom⟩ := hc
    refine ⟨?_, ?_, ?_⟩
    · intro x hx
      rcases List.mem_append.mp hx with hx | hx
      · exact h0 x hx
      · rw [List.mem_singleton.mp hx]; exact hz
    · rw [List.nodup_append]
      refine ⟨hnd, List.nodup_singleton id, ?_⟩
      intro a ha hb
      rw [List.mem_singleton.mp hb] at ha
      exact hmem ha
    · simp only [List.length_append, List.length_singleton]; omega

theorem well_formed_nil : well_formed [] :=
  ⟨fun _ h => absurd h (List.not_mem_nil _), List.nodup_nil, Nat.zero_le _⟩

theorem slots_nil : slots [] = unknown_init := by
  simp [slots, unknown_init]

theorem reachable_slots (s : List Int) (h : Reachable s) :
    ∃ t, well_formed t ∧ s = slots t := by
  induction h with
  | init => exact ⟨[], well_formed_nil, slots_nil.symm⟩
  | step LINES u id _ ih =>
    obtain ⟨t, ht, rfl⟩ := ih
    refine ⟨observe t id, observe_well_formed t id ht, ?_⟩
    rw [unknown_frame_slots LINES t id ht.1 ht.2.2]

theorem observe_all_slots (LINES : Int) (ids : List Int) (t : List Int) (h : well_formed t) :
    observe_all LINES (slots t) ids = slots (ids.foldl observe t) := by
  induction ids generalizing t with
  | nil => rfl
  | cons id ids ih =>
    simp only [observe_all, List.foldl_cons] at ih ⊢
    rw [unknown_frame_slots LINES t id h.1 h.2.2]
    exact ih (observe t id) (observe_well_formed t id h)

theorem foldl_observe_fresh (ids : List Int) (t : List Int)
    (hnd : (t ++ ids).Nodup) (h0 : ∀ x ∈ ids, x ≠ 0) (hlen : (t ++ ids).length ≤ UNKNOWN_COUNT) :
    ids.foldl observe t = t ++ ids := by
  induction ids generalizing t with
  | nil => simp
  | cons id ids ih =>
    have hmem : id ∉ t := by
      intro hm
      have := (List.nodup_append.mp hnd).2.2
      exact this hm (List.mem_cons_self id ids)
    have hz : id ≠ 0 := h0 id (List.mem_cons_self id ids)
    have hroom : ¬ UNKNOWN_COUNT ≤ t.length := by
      simp only [List.length_append, List.length_cons] at hlen; omega
    have hobs : observe t id = t ++ [id] := by simp [observe, hmem, hz, hroom]
    rw [List.foldl_cons, hobs]
    have e : t ++ [id] ++ ids = t ++ id :: ids := by simp
    rw [ih (t ++ [id]) (by rw [e]; exact hnd)
      (fun x hx => h0 x (List.mem_cons_of_mem id hx)) (by rw [e]; exact hlen), e]

/-- C4, as the code behaves: from the empty tracker, for every sequence of at most 1024
pairwise distinct nonzero identifiers, the i-th call of `unknown_frame` adds the
identifier: the array then holds exactly the first i identifiers of the sequence, in
order, and the summary drawn lists exactly them. -/
theorem distinct_nonzero_identifiers_added (LINES : Int) (ids : List Int) (i : Nat)
    (hnd : ids.Nodup) (h0 : ∀ id ∈ ids, id ≠ 0) (hlen : ids.length ≤ UNKNOWN_COUNT)
    (hi : i < ids.length) :
    unknown_frame LINES (observe_all LINES unknown_init (ids.take i)) (ids.getD i 0)
      = (slots (ids.take (i + 1)), summary LINES (ids.take (i + 1)))
    ∧ tracked (unknown_frame LINES (observe_all LINES unknown_init (ids.take i))
        (ids.getD i 0)).1 = ids.take (i + 1) := by
  have hsub : ∀ k, ∀ x ∈ ids.take k, x ∈ ids := fun k x hx => List.mem_of_mem_take hx
  have hwf : ∀ k, well_formed (ids.take k) := fun k =>
    ⟨fun x hx => h0 x (hsub k x hx), hnd.sublist (List.take_sublist k ids),
      le_trans (List.take_sublist k ids).length_le hlen⟩
  have hstate : observe_all LINES unknown_init (ids.take i) = slots (ids.take i) := by
    rw [← slots_nil, observe_all_slots LINES _ [] well_formed_nil,
      foldl_observe_fresh (ids.take i) [] (by simpa using (hwf i).2.1)
        (fun x hx => (hwf i).1 x hx) (by simpa using (hwf i).2.2)]
    simp
  have hsucc : ids.take (i + 1) = ids.take i ++ [ids.getD i 0] := by
    rw [List.take_succ, List.getD_eq_getElem _ _ hi, List.getElem?_eq_getElem hi]
    rfl
  have hobs : observe (ids.take i) (ids.getD i 0) = ids.take (i + 1) := by
    have := foldl_observe_fresh [ids.getD i 0] (ids.take i)
      (by rw [← hsucc]; exact (hwf (i + 1)).2.1)
      (by intro x hx; rw [List.mem_singleton.mp hx, List.getD_eq_getElem _ _ hi]
          exact h0 _ (List.getElem_mem _))
      (by rw [← hsucc]; exact (hwf (i + 1)).2.2)
    simpa [hsucc] using this
  have hroom : ¬ UNKNOWN_COUNT ≤ (ids.take i).length := by
    rw [List.length_take]; omega
  have key : unknown_frame LINES (observe_all LINES unknown_init (ids.take i)) (ids.getD i 0)
      = (slots (ids.take (i + 1)), summary LINES (ids.take (i + 1))) := by
    rw [hstate, unknown_frame_slots LINES _ _ (hwf i).1 (hwf i).2.2, hobs,
      if_neg (fun h => hroom h.2)]
  refine ⟨key, ?_⟩
  rw [key]
  exact tracked_slots _ (hwf (i + 1)).1 (hwf (i + 1)).2.2

theorem distinct_nonzero_identifiers_added_witness :
    unknown_frame 24 (observe_all 24 unknown_init ([0x999, 0x123, 0x7ff].take 1))
        (([0x999, 0x123, 0x7ff] : List Int).getD 1 0)
      = (slots ([0x999, 0x123, 0x7ff].take 2), summary 24 ([0x999, 0x123, 0x7ff].take 2))
    ∧ tracked (unknown_frame 24 (observe_all 24 unknown_init ([0x999, 0x123, 0x7ff].take 1))
        (([0x999, 0x123, 0x7ff] : List Int).getD 1 0)).1 = [0x999, 0x123] :=
  distinct_nonzero_identifiers_added 24 [0x999, 0x123, 0x7ff] 1 (by decide) (by decide)
    (by decide) (by decide)

/-- C4 as stated fails: identifier 0 is not in the registry, yet observing it from the
empty tracker leaves the tracked list empty instead of making it the list holding 0. -/
theorem zero_identifier_not_added :
    ¬ known_id 0 ∧ ([0] : List Int).Nodup
    ∧ tracked (unknown_frame 24 (observe_all 24 unknown_init (([0] : List Int).take 0))
        (([0] : List Int).getD 0 0)).1 ≠ ([0] : List Int).take 1 := by
  decide

/-- C5: in a state where all 1024 slots hold an identifier, `unknown_frame` called with
an identifier that is not among them returns at once: the array is unchanged and no
curses call is made, so the tracked identifiers stay the same 1024. -/
theorem full_tracker_drops (LINES : Int) (unknown : List Int) (id : Int)
    (hlen : unknown.length = UNKNOWN_COUNT) (hfull : ∀ x ∈ unknown, x ≠ 0)
    (hid : id ∉ unknown) :
    unknown_frame LINES unknown id = (unknown, [])
    ∧ tracked (unknown_frame LINES unknown id).1 = unknown := by
  have hs : slots unknown = unknown := by simp [slots, hlen]
  have hobs : observe unknown id = unknown := by simp [observe, hlen]
  have key : unknown_frame LINES unknown id = (unknown, []) := by
    have := unknown_frame_slots LINES unknown id hfull (le_of_eq hlen)
    rw [hobs, hs] at this
    rw [this]
    simp [hid, hlen]
  refine ⟨key, ?_⟩
  rw [key]
  have := tracked_slots unknown hfull (le_of_eq hlen)
  rwa [hs] at this

theorem full_tracker_drops_witness :
    unknown_frame 24 (List.replicate 1024 7) 0x999 = (List.replicate 1024 7, [])
    ∧ tracked (unknown_frame 24 (List.replicate 1024 7) 0x999).1 = List.replicate 1024 7 :=
  full_tracker_drops 24 (List.replicate 1024 7) 0x999 (by simp [UNKNOWN_COUNT])
    (by intro x hx; rw [List.eq_of_mem_replicate hx]; decide)
    (by intro h; exact absurd (List.eq_of_mem_replicate h) (by decide))

theorem process_one_known (host : Endian) (LINES : Int) (unknown : List Int)
    (frm : can_frame) (h : known_id frm.can_id) :
    (process_one host LINES unknown frm).1 = unknown := by
  obtain ⟨id, n, data⟩ := frm
  simp only [known_id] at h
  rcases h with h | h | h | h | h | h | h <;> subst h <;>
    simp [process_one, TOY_WHEEL_SPEED_A, TOY_WHEEL_SPEED_B, TOY_UNK_B4, TOY_BRAKE,
      TOY_THROTTLE, TOY_ENGINE, TOY_FUEL_USAGE]

theorem process_one_unknown (host : Endian) (LINES : Int) (unknown : List Int)
    (frm : can_frame) (h : ¬ known_id frm.can_id) :
    process_one host LINES unknown frm =
      ((unknown_frame LINES unknown (toI32 frm.can_id)).1,
        (unknown_frame LINES unknown (toI32 frm.can_id)).2 ++ [Curses.refresh]) := by
  simp only [known_id, not_or] at h
  obtain ⟨h1, h2, h3, h4, h5, h6, h7⟩ := h
  simp [process_one, TOY_WHEEL_SPEED_A, TOY_WHEEL_SPEED_B, TOY_UNK_B4, TOY_BRAKE,
    TOY_THROTTLE, TOY_ENGINE, TOY_FUEL_USAGE, h1, h2, h3, h4, h5, h6, h7]

/-- C6: in every state reachable from the empty tracker, observing an identifier that
is already tracked leaves the array (hence the tracked list) as it is, whether or not
the tracker is full; and observing any identifier twice in a row gives the state that
observing it once gives. -/
theorem tracked_identifier_reobserved (LINES : Int) (unknown : List Int) (id : Int)
    (hr : Reachable unknown) (hid : id ∈ tracked unknown) :
    (unknown_frame LINES unknown id).1 = unknown
    ∧ ∀ id', (unknown_frame LINES (unknown_frame LINES unknown id').1 id').1
        = (unknown_frame LINES unknown id').1 := by
  obtain ⟨t, ht, rfl⟩ := reachable_slots unknown hr
  rw [tracked_slots t ht.1 ht.2.2] at hid
  constructor
  · rw [unknown_frame_slots LINES t id ht.1 ht.2.2]
    simp [observe, hid]
  · intro id'
    have ht' := observe_well_formed t id' ht
    rw [unknown_frame_slots LINES t id' ht.1 ht.2.2,
      unknown_frame_slots LINES _ id' ht'.1 ht'.2.2]
    show slots (observe (observe t id') id') = slots (observe t id')
    congr 1
    unfold observe
    split_ifs <;> simp_all

theorem tracked_identifier_reobserved_witness :
    (unknown_frame 24 (unknown_frame 24 unknown_init 0x999).1 0x999).1
        = (unknown_frame 24 unknown_init 0x999).1
    ∧ ∀ id', (unknown_frame 24 (unknown_frame 24 (unknown_frame 24 unknown_init 0x999).1 id').1
          id').1
        = (unknown_frame 24 (unknown_frame 24 unknown_init 0x999).1 id').1 :=
  tracked_identifier_reobserved 24 (unknown_frame 24 unknown_init 0x999).1 0x999
    (Reachable.step 24 unknown_init 0x999 Reachable.init) (by decide)

/-- C7, as the code behaves: on a registry miss in a reachable state, `process_one`
redraws the summary of the unknown identifiers when the identifier is already tracked
(array unchanged, the same list drawn again) and when it is newly added; only when all
1024 slots are taken and the identifier is not tracked does it draw nothing. -/
theorem unknown_summary_redrawn_unless_dropped (host : Endian) (LINES : Int)
    (unknown : List Int) (frm : can_frame)
    (hr : Reachable unknown) (hmiss : ¬ known_id frm.can_id) :
    (toI32 frm.can_id ∈ tracked unknown →
      process_one host LINES unknown frm
        = (unknown, summary LINES (tracked unknown) ++ [Curses.refresh]))
    ∧ (toI32 frm.can_id ∉ tracked unknown → toI32 frm.can_id ≠ 0 →
        (tracked unknown).length < UNKNOWN_COUNT →
      process_one host LINES unknown frm
        = (slots (tracked unknown ++ [toI32 frm.can_id]),
            summary LINES (tracked unknown ++ [toI32 frm.can_id]) ++ [Curses.refresh]))
    ∧ (toI32 frm.can_id ∉ tracked unknown → (tracked unknown).length = UNKNOWN_COUNT →
      process_one host LINES unknown frm = (unknown, [Curses.refresh])) := by
  obtain ⟨t, ht, rfl⟩ := reachable_slots unknown hr
  rw [tracked_slots t ht.1 ht.2.2, process_one_unknown host LINES _ frm hmiss,
    unknown_frame_slots LINES t _ ht.1 ht.2.2]
  refine ⟨?_, ?_, ?_⟩
  · intro hmem
    simp [observe, hmem]
  · intro hmem hz hroom
    have hroom' : ¬ UNKNOWN_COUNT ≤ t.length := by omega
    simp [observe, hmem, hz, hroom']
  · intro hmem hfull
    simp [observe, hmem, hfull]

theorem unknown_summary_redrawn_unless_dropped_witness :
    process_one Endian.little 24 (unknown_frame 24 unknown_init 0x999).1
        ⟨0x999, 0, [0, 0, 0, 0, 0, 0, 0, 0]⟩
      = ((unknown_frame 24 unknown_init 0x999).1,
          summary 24 (tracked (unknown_frame 24 unknown_init 0x999).1) ++ [Curses.refresh]) :=
  (unknown_summary_redrawn_unless_dropped Endian.little 24 (unknown_frame 24 unknown_init 0x999).1
    ⟨0x999, 0, [0, 0, 0, 0, 0, 0, 0, 0]⟩
    (Reachable.step 24 unknown_init 0x999 Reachable.init) (by decide)).1 (by decide)

/-- C7 as stated fails: identifier 0x999 is tracked after its first frame, and its
second frame clears the summary row 21 (of 24 rows) and draws the summary again. -/
theorem already_tracked_identifier_redrawn :
    toI32 0x999 ∈ tracked (process_one Endian.little 24 unknown_init
        ⟨0x999, 0, [0, 0, 0, 0, 0, 0, 0, 0]⟩).1
    ∧ process_one Endian.little 24
        (process_one Endian.little 24 unknown_init ⟨0x999, 0, [0, 0, 0, 0, 0, 0, 0, 0]⟩).1
        ⟨0x999, 0, [0, 0, 0, 0, 0, 0, 0, 0]⟩
      = ((process_one Endian.little 24 unknown_init ⟨0x999, 0, [0, 0, 0, 0, 0, 0, 0, 0]⟩).1,
          [Curses.move 21 1, Curses.clrtoeol, Curses.mvprintw 21 1 "unk:",
           Curses.printw " 999", Curses.printw " (1)", Curses.refresh])
    ∧ render_rows (process_one Endian.little 24
        (process_one Endian.little 24 unknown_init ⟨0x999, 0, [0, 0, 0, 0, 0, 0, 0, 0]⟩).1
        ⟨0x999, 0, [0, 0, 0, 0, 0, 0, 0, 0]⟩).2 ≠ [] := by
  decide

theorem foldl_observe_well_formed (ids : List Int) (t : List Int) (h : well_formed t) :
    well_formed (ids.foldl observe t) := by
  induction ids generalizing t with
  | nil => exact h
  | cons id ids ih => exact ih (observe t id) (observe_well_formed t id h)

theorem run_from_slots (host : Endian) (LINES : Int) (frames : List can_frame)
    (t : List Int) (h : well_formed t) :
    frames.foldl (fun unknown frm => (process_one host LINES unknown frm).1) (slots t)
      = slots ((unknown_ids frames).foldl observe t) := by
  induction frames generalizing t with
  | nil => rfl
  | cons frm frames ih =>
    rw [List.foldl_cons]
    by_cases hk : known_id frm.can_id
    · rw [process_one_known host LINES _ frm hk, ih t h]
      simp [unknown_ids, hk]
    · rw [process_one_unknown host LINES _ frm hk, unknown_frame_slots LINES t _ h.1 h.2.2,
        ih _ (observe_well_formed t _ h)]
      simp [unknown_ids, hk]

theorem foldl_observe_first_seen (ids : List Int) (t : List Int)
    (hlen : t.length ≤ UNKNOWN_COUNT) :
    ids.foldl observe t
      = (t ++ (first_seen ids).filter (fun x => decide (x ∉ t))).take UNKNOWN_COUNT := by
  induction ids generalizing t with
  | nil => simp [first_seen, List.take_of_length_le hlen]
  | cons id ids ih =>
    rw [List.foldl_cons]
    by_cases hfull : UNKNOWN_COUNT ≤ t.length
    · have hobs : observe t id = t := by simp [observe, hfull]
      have hl : t.length = UNKNOWN_COUNT := le_antisymm hlen hfull
      rw [hobs, ih t hlen, ← hl, List.take_left', List.take_left'] <;> rfl
    · by_cases hz : id = 0
      · have hobs : observe t id = t := by simp [observe, hz]
        rw [hobs, ih t hlen]
        simp [first_seen, hz]
      · by_cases hmem : id ∈ t
        · have hobs : observe t id = t := by simp [observe, hmem]
          rw [hobs, ih t hlen]
          congr 2
          simp only [first_seen, hz, if_false, List.filter_cons, hmem, not_true_eq_false,
            decide_False, List.filter_filter]
          apply List.filter_congr
          intro x _
          by_cases hx : x ∈ t
          · simp [hx]
          · have : x ≠ id := fun e => hx (e ▸ hmem)
            simp [hx, this]
        · have hobs : observe t id = t ++ [id] := by simp [observe, hmem, hz, hfull]
          have hlen' : (t ++ [id]).length ≤ UNKNOWN_COUNT := by
            simp only [List.length_append, List.length_singleton]; omega
          rw [hobs, ih (t ++ [id]) hlen']
          congr 1
          simp only [first_seen, hz, if_false, List.filter_cons, hmem, not_false_eq_true,
            decide_True, if_true, List.filter_filter, List.append_assoc, List.singleton_append]
          congr 2
          apply List.filter_congr
          intro x _
          by_cases hx : x ∈ t <;> by_cases hxi : x = id <;> simp [hx, hxi]

theorem getD_slots_indexOf (t : List Int) (id : Int) (h : id ∈ t) :
    (slots t).getD (t.indexOf id) 0 = id := by
  have hi : t.indexOf id < t.length := List.indexOf_lt_length.mpr h
  unfold slots
  rw [List.getD_append _ _ _ _ hi, List.getD_eq_getElem _ _ hi]
  exact List.getElem_indexOf hi

/-- C8: after every sequence of frames processed from the state `main` sets up, the
array has its 1024 slots, the tracked identifiers are without repetition, are the
nonzero unknown identifiers in the order of their first occurrence (the first 1024 of
them), number at most 1024 and fill a prefix of the array after which every slot is
empty; and for every tracked identifier the scan of `unknown_frame` stops below 1024 at
a slot that holds it. -/
theorem unknown_set_invariant (host : Endian) (LINES : Int) (frames : List can_frame) :
    (run host LINES frames).length = UNKNOWN_COUNT
    ∧ (tracked (run host LINES frames)).Nodup
    ∧ tracked (run host LINES frames)
        = (first_seen (unknown_ids frames)).take UNKNOWN_COUNT
    ∧ (tracked (run host LINES frames)).length ≤ UNKNOWN_COUNT
    ∧ run host LINES frames
        = tracked (run host LINES frames)
          ++ List.replicate (UNKNOWN_COUNT - (tracked (run host LINES frames)).length) 0
    ∧ ∀ id ∈ tracked (run host LINES frames),
        scan (run host LINES frames) id < UNKNOWN_COUNT
        ∧ (run host LINES frames).getD (scan (run host LINES frames) id) 0 = id := by
  have hrun : run host LINES frames = slots ((unknown_ids frames).foldl observe []) := by
    unfold run
    rw [← slots_nil]
    exact run_from_slots host LINES frames [] well_formed_nil
  have hwf := foldl_observe_well_formed (unknown_ids frames) [] well_formed_nil
  have hfs := foldl_observe_first_seen (unknown_ids frames) [] (Nat.zero_le _)
  simp only [List.nil_append, List.not_mem_nil, not_false_eq_true, decide_True,
    List.filter_true] at hfs
  generalize (unknown_ids frames).foldl observe [] = t at hrun hwf hfs
  rw [hrun, tracked_slots t hwf.1 hwf.2.2]
  refine ⟨length_slots t hwf.2.2, hwf.2.1, hfs, hwf.2.2, rfl, ?_⟩
  intro id hid
  rw [scan_slots t id hwf.1 hwf.2.2]
  exact ⟨lt_of_lt_of_le (List.indexOf_lt_length.mpr hid) hwf.2.2, getD_slots_indexOf t id hid⟩

/-! ## The summary of the unknown identifiers -/

theorem printf_hex_id (id : Int) :
    printf " %02x" [Arg.int id] = String.mk (' ' :: hex_id id) := by
  simp [printf, vprintf, fmt_unsigned, conv_unsigned, toU32, hex_id]

theorem printf_count_int (v : Int) (r : toI32 v = v) :
    printf " (%d)" [Arg.int v] = String.mk (" (".data ++ decimal v ++ ")".data) := by
  simp [printf, vprintf, fmt_signed_blank, conv_signed, r, right_align]

theorem printf_count (n : Nat) (h : n ≤ UNKNOWN_COUNT) :
    printf " (%d)" [Arg.int n] = String.mk (" (".data ++ decimal n ++ ")".data) :=
  printf_count_int n
    (toI32_of_range _ (by omega) (by unfold UNKNOWN_COUNT at h; omega))

theorem screen_text_ids (t : List Int) (rest : List Curses) :
    screen_text (t.map (fun id => Curses.printw (String.mk (' ' :: hex_id id))) ++ rest)
      = ids_text t ++ screen_text rest := by
  induction t with
  | nil => rfl
  | cons id t ih => simp [screen_text, ids_text, ih]

theorem summary_spelled (LINES : Int) (t : List Int) (h : t.length ≤ UNKNOWN_COUNT) :
    summary LINES t =
      [Curses.move (LINES - 3) 1, Curses.clrtoeol, Curses.mvprintw (LINES - 3) 1 "unk:"]
        ++ t.map (fun id => Curses.printw (String.mk (' ' :: hex_id id)))
        ++ [Curses.printw (String.mk (" (".data ++ decimal t.length ++ ")".data))] := by
  unfold summary
  rw [printf_count t.length h]
  simp only [printf_hex_id]

theorem screen_text_summary (LINES : Int) (t : List Int) (h : t.length ≤ UNKNOWN_COUNT) :
    String.mk (screen_text (summary LINES t)) = summary_text t := by
  rw [summary_spelled LINES t h]
  simp [screen_text, screen_text_ids, summary_text]

/-- C11: when `unknown_frame` adds an identifier (a nonzero identifier that is not yet
tracked, in a reachable state with a free slot), it clears the summary row and prints
"unk:", then for each tracked identifier in the order of the array, the new one last,
a blank and the identifier in lower-case hexadecimal with at least two digits, then
" (n)" with n the number of identifiers now tracked. -/
theorem added_identifier_summary (LINES : Int) (unknown : List Int) (id : Int)
    (hr : Reachable unknown) (hz : id ≠ 0) (hnew : id ∉ tracked unknown)
    (hroom : (tracked unknown).length < UNKNOWN_COUNT) :
    tracked (unknown_frame LINES unknown id).1 = tracked unknown ++ [id]
    ∧ (unknown_frame LINES unknown id).2 =
        [Curses.move (LINES - 3) 1, Curses.clrtoeol, Curses.mvprintw (LINES - 3) 1 "unk:"]
          ++ (tracked unknown ++ [id]).map (fun x => Curses.printw (String.mk (' ' :: hex_id x)))
          ++ [Curses.printw (String.mk (" (".data
                ++ decimal ((tracked (unknown_frame LINES unknown id).1).length : Nat)
                ++ ")".data))]
    ∧ String.mk (screen_text (unknown_frame LINES unknown id).2)
        = summary_text (tracked unknown ++ [id]) := by
  obtain ⟨t, ht, rfl⟩ := reachable_slots unknown hr
  rw [tracked_slots t ht.1 ht.2.2] at hnew hroom ⊢
  have hobs : observe t id = t ++ [id] := by
    have : ¬ UNKNOWN_COUNT ≤ t.length := by omega
    simp [observe, hnew, hz, this]
  have hwf : well_formed (t ++ [id]) := hobs ▸ observe_well_formed t id ht
  have key : unknown_frame LINES (slots t) id = (slots (t ++ [id]), summary LINES (t ++ [id])) := by
    rw [unknown_frame_slots LINES t id ht.1 ht.2.2, hobs, if_neg (fun h => by omega)]
  rw [key]
  simp only [tracked_slots _ hwf.1 hwf.2.2]
  refine ⟨trivial, summary_spelled LINES _ hwf.2.2, ?_⟩
  exact screen_text_summary LINES _ hwf.2.2

theorem added_identifier_summary_witness :
    tracked (unknown_frame 24 unknown_init 0x999).1 = tracked unknown_init ++ [0x999]
    ∧ (unknown_frame 24 unknown_init 0x999).2 =
        [Curses.move 21 1, Curses.clrtoeol, Curses.mvprintw 21 1 "unk:",
         Curses.printw " 999", Curses.printw " (1)"]
    ∧ String.mk (screen_text (unknown_frame 24 unknown_init 0x999).2) = "unk: 999 (1)" :=
  have h := added_identifier_summary 24 unknown_init 0x999 Reachable.init (by decide)
    (by decide) (by decide)
  ⟨h.1, h.2.1.trans (by decide), h.2.2.trans (by decide)⟩

theorem printf_unkb4 (a s b : Int) (ra : toI32 a = a) (rs : toI32 s = s) (rb : toI32 b = b) :
    printf "unk_b4: distance_a=%3d speed=%5d distance_b=%3d" [Arg.int a, Arg.int s, Arg.int b]
      = unkb4_line a s b := by
  simp [printf, vprintf, fmt_signed_blank, conv_signed, ra, rs, rb, unkb4_line]

/-- C14: for identifier 0x0b4 and payload bytes d0..d7, `process_one` clears row 3 and
prints the secondary line with distance_a = d4 (width 3), speed = 256*d5 + d6 (the
unsigned big-endian field at offset 5, width 5) and distance_b = d7 (width 3); the
padding bytes d0..d3 play no part. -/
theorem unkb4_frame_rendered (host : Endian) (LINES : Int) (unknown : List Int)
    (dlc d0 d1 d2 d3 d4 d5 d6 d7 : Nat) (rest : List Nat)
    (h4 : d4 < 256) (h5 : d5 < 256) (h6 : d6 < 256) (h7 : d7 < 256) :
    process_one host LINES unknown
        ⟨0x0b4, dlc, d0 :: d1 :: d2 :: d3 :: d4 :: d5 :: d6 :: d7 :: rest⟩ =
      (unknown,
        [Curses.move 3 1, Curses.clrtoeol,
         Curses.mvprintw 3 1 (unkb4_line d4 (256 * d5 + d6) d7),
         Curses.refresh]) := by
  have es := be16toh_ld_u16 host (d0 :: d1 :: d2 :: d3 :: d4 :: d5 :: d6 :: d7 :: rest) 5
    (by simpa using h5) (by simpa using h6)
  simp only [List.getD_cons_zero, List.getD_cons_succ, zero_add] at es
  have r4 : toI32 (d4 : Int) = d4 := toI32_of_range _ (by omega) (by omega)
  have r7 : toI32 (d7 : Int) = d7 := toI32_of_range _ (by omega) (by omega)
  have rs : toI32 (256 * (d5 : Int) + d6) = 256 * (d5 : Int) + d6 :=
    toI32_of_range _ (by omega) (by omega)
  have hf := printf_unkb4 d4 (256 * d5 + d6) d7 r4 rs r7
  simp only [process_one, TOY_WHEEL_SPEED_A, TOY_WHEEL_SPEED_B, TOY_UNK_B4, if_true, es, ld_u8,
    List.getD_cons_zero, List.getD_cons_succ, hf]
  simp

theorem unkb4_frame_rendered_witness :
    process_one Endian.little 24 unknown_init ⟨0x0b4, 8, [9, 9, 9, 9, 3, 4, 5, 255]⟩ =
      (unknown_init,
        [Curses.move 3 1, Curses.clrtoeol,
         Curses.mvprintw 3 1 "unk_b4: distance_a=  3 speed= 1029 distance_b=255",
         Curses.refresh]) :=
  (unkb4_frame_rendered Endian.little 24 unknown_init 8 9 9 9 9 3 4 5 255 []
    (by decide) (by decide) (by decide) (by decide)).trans (by decide)

/-! ## Signedness of the throttle and engine lines -/

/-- C12, at a failing payload: with d5 = 200 and (d6, d7) = (0xFF, 0xFF) the throttle
line shows unk2 = -56 and throttle = 65535, where the layout of `toyoframe.throttle`
(`uint8_t unk2`, `int16_t throttle`) gives 200 and -1; flags0, unk0 and unk1 are shown
as the layout says. -/
theorem throttle_line_signedness :
    process_one Endian.little 24 unknown_init
        ⟨0x2c1, 8, [0x08, 0xff, 0xfe, 0x00, 0x10, 200, 0xff, 0xff]⟩ =
      (unknown_init,
        [Curses.move 5 1, Curses.clrtoeol,
         Curses.mvprintw 5 1
           "throttle: flags0=08 unk0=   -2 unk1=   16, unk2=-56 throttle=65535",
         Curses.refresh])
    ∧ process_one Endian.big 24 unknown_init
        ⟨0x2c1, 8, [0x08, 0xff, 0xfe, 0x00, 0x10, 200, 0xff, 0xff]⟩ =
      (unknown_init,
        [Curses.move 5 1, Curses.clrtoeol,
         Curses.mvprintw 5 1
           "throttle: flags0=08 unk0=   -2 unk1=   16, unk2=-56 throttle=65535",
         Curses.refresh]) := by
  decide

/-- C13, at a failing payload: with (d0, d1) = (0x80, 0x00) the engine line shows
rpm = -32768, where the layout of `toyoframe.engine` (`uint16_t rpm`) gives 32768;
unk0, unk1 and unk2 are shown as the layout says. -/
theorem engine_line_rpm_signed :
    process_one Endian.little 24 unknown_init ⟨0x2c4, 8, [0x80, 0x00, 1, 2, 3, 4, 5, 0xff]⟩ =
      (unknown_init,
        [Curses.move 6 1, Curses.clrtoeol,
         Curses.mvprintw 6 1 "engine: rpm=-32768 unk0=  2 unk1=  5, unk2= -1",
         Curses.refresh])
    ∧ process_one Endian.big 24 unknown_init ⟨0x2c4, 8, [0x80, 0x00, 1, 2, 3, 4, 5, 0xff]⟩ =
      (unknown_init,
        [Curses.move 6 1, Curses.clrtoeol,
         Curses.mvprintw 6 1 "engine: rpm=-32768 unk0=  2 unk1=  5, unk2= -1",
         Curses.refresh]) := by
  decide

/-! ## Dispatch -/

theorem render_rows_print_from (unknown : List Int) (fuel i : Nat) (rest : List Curses) :
    render_rows ((print_from unknown fuel i).1 ++ rest) = render_rows rest := by
  induction fuel generalizing i with
  | zero => rfl
  | succ n ih =>
    simp only [print_from]
    split_ifs
    · rfl
    · simpa [render_rows] using ih (i + 1)

theorem render_rows_unknown_frame (LINES : Int) (unknown : List Int) (id : Int) :
    ∀ r ∈ render_rows (unknown_frame LINES unknown id).2, r = LINES - 3 := by
  unfold unknown_frame
  split_ifs
  · simp [render_rows]
  · intro r hr
    simpa [render_rows, render_rows_print_from] using hr

theorem render_rows_append_refresh (ops : List Curses) :
    render_rows (ops ++ [Curses.refresh]) = render_rows ops := by
  induction ops with
  | nil => rfl
  | cons op ops ih => cases op <;> simp [render_rows, ih]

theorem process_one_known_trace (host : Endian) (frm : can_frame) (h : known_id frm.can_id) :
    ∃ text, ∀ LINES unknown, process_one host LINES unknown frm =
      (unknown,
        [Curses.move (family_slot frm.can_id) 1, Curses.clrtoeol,
         Curses.mvprintw (family_slot frm.can_id) 1 text, Curses.refresh]) := by
  obtain ⟨id, n, data⟩ := frm
  simp only [known_id] at h
  rcases h with h | h | h | h | h | h | h <;> subst h <;>
    exact ⟨_, fun _ _ => rfl⟩

theorem family_slot_range (id : Nat) : 1 ≤ family_slot id ∧ family_slot id ≤ 7 := by
  unfold family_slot
  split_ifs <;> omega

/-- C16: for every payload there is one text that `process_one` prints for it both
under 0x0b0 and under 0x0b2, whatever the state and the length code; under 0x0b0 it is
printed at row 1 and under 0x0b2 at row 2. -/
theorem wheel_channels_share_decode (host : Endian) (data : List Nat) :
    ∃ text, ∀ (LINES : Int) (unknown : List Int) (dlc_a dlc_b : Nat),
      process_one host LINES unknown ⟨0x0b0, dlc_a, data⟩ =
        (unknown,
          [Curses.move 1 1, Curses.clrtoeol, Curses.mvprintw 1 1 text, Curses.refresh])
      ∧ process_one host LINES unknown ⟨0x0b2, dlc_b, data⟩ =
        (unknown,
          [Curses.move 2 1, Curses.clrtoeol, Curses.mvprintw 2 1 text, Curses.refresh])
      ∧ family_slot 0x0b0 = 1 ∧ family_slot 0x0b2 = 2 ∧ family_slot 0x0b0 ≠ family_slot 0x0b2 := by
  refine ⟨printf "wheel: a=%5d b=%5d (delta=%5d) flags=%02x seq=%02x"
    [Arg.int (be16toh host (ld_u16 host data 0)),
     Arg.int (be16toh host (ld_u16 host data 2)),
     Arg.int (toI32 (be16toh host (ld_u16 host data 0) - be16toh host (ld_u16 host data 2))),
     Arg.int (ld_u8 data 4),
     Arg.int (ld_u8 data 5)], fun LINES unknown dlc_a dlc_b => ⟨?_, ?_, ?_, ?_, ?_⟩⟩
  · simp [process_one, TOY_WHEEL_SPEED_A, TOY_WHEEL_SPEED_B]
  · simp [process_one, TOY_WHEEL_SPEED_A, TOY_WHEEL_SPEED_B]
  · decide
  · decide
  · decide

/-- C17: for a frame with a known identifier the curses calls of `process_one` (row and
text) are fixed by the frame and the byte order of the host alone: they are the same in
every state of the array and for every terminal height, hence after any history of
frames, and the array is returned unchanged. This holds for every payload. -/
theorem known_frame_decode_pure (host : Endian) (frm : can_frame)
    (hid : known_id frm.can_id) :
    ∃ ops, (∀ (LINES : Int) (unknown : List Int),
        process_one host LINES unknown frm = (unknown, ops))
      ∧ ∀ (LINES : Int) (frames : List can_frame),
        process_one host LINES (run host LINES frames) frm = (run host LINES frames, ops) := by
  obtain ⟨text, ht⟩ := process_one_known_trace host frm hid
  exact ⟨_, fun LINES unknown => ht LINES unknown, fun LINES frames => ht LINES _⟩

theorem known_frame_decode_pure_witness :
    ∃ ops, (∀ (LINES : Int) (unknown : List Int),
        process_one Endian.little LINES unknown ⟨0x224, 8, [1, 0, 0, 0, 0, 0, 0, 0]⟩
          = (unknown, ops))
      ∧ ∀ (LINES : Int) (frames : List can_frame),
        process_one Endian.little LINES (run Endian.little LINES frames)
            ⟨0x224, 8, [1, 0, 0, 0, 0, 0, 0, 0]⟩
          = (run Endian.little LINES frames, ops) :=
  known_frame_decode_pure Endian.little ⟨0x224, 8, [1, 0, 0, 0, 0, 0, 0, 0]⟩ (by decide)

/-- C19: identifier 0 is not in the registry and is the value of an empty slot. In
every state reachable from the empty tracker, `unknown_frame` called with 0 (as
`process_one` does for a frame of identifier 0) leaves the array unchanged, 0 is not
among the tracked identifiers, and what is drawn, if anything, is the summary of the
identifiers tracked before the call, with their count. -/
theorem zero_identifier_never_tracked (LINES : Int) (unknown : List Int)
    (hr : Reachable unknown) :
    ¬ known_id 0
    ∧ (∀ (host : Endian) (dlc : Nat) (data : List Nat),
        process_one host LINES unknown ⟨0, dlc, data⟩ =
          ((unknown_frame LINES unknown 0).1,
            (unknown_frame LINES unknown 0).2 ++ [Curses.refresh]))
    ∧ (unknown_frame LINES unknown 0).1 = unknown
    ∧ tracked (unknown_frame LINES unknown 0).1 = tracked unknown
    ∧ (0 : Int) ∉ tracked unknown
    ∧ (unknown_frame LINES unknown 0).2 =
        (if (tracked unknown).length < UNKNOWN_COUNT then summary LINES (tracked unknown)
          else []) := by
  obtain ⟨t, ht, rfl⟩ := reachable_slots unknown hr
  have h0 : (0 : Int) ∉ t := fun h => ht.1 0 h rfl
  have hobs : observe t 0 = t := by simp [observe]
  have key := unknown_frame_slots LINES t 0 ht.1 ht.2.2
  rw [hobs] at key
  rw [key, tracked_slots t ht.1 ht.2.2]
  refine ⟨by decide, ?_, rfl, rfl, h0, ?_⟩
  · intro host dlc data
    have hk : ¬ known_id (⟨0, dlc, data⟩ : can_frame).can_id := by
      show ¬ known_id 0
      decide
    have e : toI32 ((⟨0, dlc, data⟩ : can_frame).can_id : Int) = 0 := by
      show toI32 ((0 : Nat) : Int) = 0
      decide
    rw [process_one_unknown host LINES (slots t) ⟨0, dlc, data⟩ hk, e, key]
  · by_cases hfull : UNKNOWN_COUNT ≤ t.length
    · have : ¬ t.length < UNKNOWN_COUNT := by omega
      simp [h0, hfull, this]
    · have : t.length < UNKNOWN_COUNT := by omega
      simp [hfull, this]

theorem zero_identifier_never_tracked_witness :
    ¬ known_id 0
    ∧ (∀ (host : Endian) (dlc : Nat) (data : List Nat),
        process_one host 24 (unknown_frame 24 unknown_init 0x999).1 ⟨0, dlc, data⟩ =
          ((unknown_frame 24 (unknown_frame 24 unknown_init 0x999).1 0).1,
            (unknown_frame 24 (unknown_frame 24 unknown_init 0x999).1 0).2 ++ [Curses.refresh]))
    ∧ (unknown_frame 24 (unknown_frame 24 unknown_init 0x999).1 0).1
        = (unknown_frame 24 unknown_init 0x999).1
    ∧ tracked (unknown_frame 24 (unknown_frame 24 unknown_init 0x999).1 0).1
        = tracked (unknown_frame 24 unknown_init 0x999).1
    ∧ (0 : Int) ∉ tracked (unknown_frame 24 unknown_init 0x999).1
    ∧ (unknown_frame 24 (unknown_frame 24 unknown_init 0x999).1 0).2 =
        (if (tracked (unknown_frame 24 unknown_init 0x999).1).length < UNKNOWN_COUNT then
          summary 24 (tracked (unknown_frame 24 unknown_init 0x999).1)
          else []) :=
  zero_identifier_never_tracked 24 (unknown_frame 24 unknown_init 0x999).1
    (Reachable.step 24 unknown_init 0x999 Reachable.init)

/-! ## Rows of the screen -/

theorem put_text_rows (LINES COLS : Int) (cs : List Char) (y x : Int) :
    (∀ r ∈ (put_text LINES COLS y x cs).1, y ≤ r) ∧ y ≤ (put_text LINES COLS y x cs).2.1 := by
  induction cs generalizing y x with
  | nil => simp [put_text]
  | cons c cs ih =>
    simp only [put_text]
    split_ifs
    · refine ⟨?_, (ih y (x + 1)).2⟩
      intro r hr
      rcases List.mem_cons.mp hr with h | h
      · omega
      · exact (ih y (x + 1)).1 r h
    · refine ⟨?_, by
        show y ≤ (put_text LINES COLS (y + 1) 0 cs).2.1
        have := (ih (y + 1) 0).2
        omega⟩
      intro r hr
      rcases List.mem_cons.mp hr with h | h
      · omega
      · have := (ih (y + 1) 0).1 r h
        omega
    · simp

theorem touched_printw_rows (LINES COLS : Int) (ops : List Curses)
    (h : ∀ op ∈ ops, ∃ text, op = Curses.printw text) (y x : Int) :
    ∀ r ∈ (touched LINES COLS y x ops).1, y ≤ r := by
  induction ops generalizing y x with
  | nil => simp [touched]
  | cons op ops ih =>
    obtain ⟨text, rfl⟩ := h op (List.mem_cons_self _ _)
    have hops : ∀ op ∈ ops, ∃ text, op = Curses.printw text :=
      fun op hop => h op (List.mem_cons_of_mem _ hop)
    intro r hr
    simp only [touched, List.mem_append] at hr
    have hp := put_text_rows LINES COLS text.data y x
    rcases hr with hr | hr
    · exact hp.1 r hr
    · have := ih hops _ _ r hr
      omega

theorem print_from_printw (unknown : List Int) (fuel i : Nat) :
    ∀ op ∈ (print_from unknown fuel i).1, ∃ text, op = Curses.printw text := by
  induction fuel generalizing i with
  | zero => simp [print_from]
  | succ n ih =>
    simp only [print_from]
    split_ifs
    · simp
    · intro op hop
      rcases List.mem_cons.mp hop with h | h
      · exact ⟨_, h⟩
      · exact ih (i + 1) op h

theorem unknown_frame_trace_shape (LINES : Int) (unknown : List Int) (id : Int) :
    (unknown_frame LINES unknown id).2 = []
    ∨ ∃ tail, (unknown_frame LINES unknown id).2 =
          Curses.move (LINES - 3) 1 :: Curses.clrtoeol
            :: Curses.mvprintw (LINES - 3) 1 "unk:" :: tail
        ∧ ∀ op ∈ tail, ∃ text, op = Curses.printw text := by
  unfold unknown_frame
  split_ifs
  · exact Or.inl rfl
  · refine Or.inr ⟨(print_from (unknown.set (scan unknown id) id) UNKNOWN_COUNT 0).1
      ++ [Curses.printw (printf " (%d)"
            [Arg.int (print_from (unknown.set (scan unknown id) id) UNKNOWN_COUNT 0).2])],
      ?_, ?_⟩
    · simp [printf, vprintf]
    · intro op hop
      rcases List.mem_append.mp hop with h | h
      · exact print_from_printw _ _ _ op h
      · exact ⟨_, List.mem_singleton.mp h⟩

theorem touched_unknown_frame (LINES COLS : Int) (hL : 3 ≤ LINES) (hC : 1 < COLS)
    (unknown : List Int) (id : Int) (y x : Int) :
    ∀ r ∈ (touched LINES COLS y x (unknown_frame LINES unknown id).2).1, LINES - 3 ≤ r := by
  rcases unknown_frame_trace_shape LINES unknown id with h | ⟨tail, h, htail⟩
  · rw [h]; simp [touched]
  · rw [h]
    have hw : in_window LINES COLS (LINES - 3) 1 := ⟨by omega, by omega, by omega, hC⟩
    intro r hr
    simp only [touched, hw, if_true, List.mem_cons, List.mem_append] at hr
    have hp := put_text_rows LINES COLS ['u', 'n', 'k', ':'] (LINES - 3) 1
    rcases hr with hr | hr | hr
    · omega
    · exact hp.1 r hr
    · have := touched_printw_rows LINES COLS tail htail _ _ r hr
      omega

/-- C15: the `switch` of `process_one` compares the whole identifier. For every
identifier other than the seven of `frame_ids`, also one that differs from them only in
high bits, none of the family cases runs: `process_one` does exactly what
`unknown_frame` does on the identifier converted to `int`, followed by `refresh`, so
the only line it starts, if any, is the summary line "unk:" at the summary row
LINES - 3. For each of the seven identifiers it leaves the array alone and clears and
writes exactly one family line, at the row of the family, a row from 1 to 7. -/
theorem registry_lookup_exact (host : Endian) (LINES : Int) (unknown : List Int)
    (frm : can_frame) :
    (¬ known_id frm.can_id →
      process_one host LINES unknown frm =
        ((unknown_frame LINES unknown (toI32 frm.can_id)).1,
          (unknown_frame LINES unknown (toI32 frm.can_id)).2 ++ [Curses.refresh])
      ∧ ((process_one host LINES unknown frm).2 = [Curses.refresh]
          ∨ ∃ tail, (process_one host LINES unknown frm).2 =
                Curses.move (LINES - 3) 1 :: Curses.clrtoeol
                  :: Curses.mvprintw (LINES - 3) 1 "unk:" :: tail
              ∧ ∀ op ∈ tail, op = Curses.refresh ∨ ∃ text, op = Curses.printw text)
      ∧ ∀ r ∈ render_rows (process_one host LINES unknown frm).2, r = LINES - 3)
    ∧ (known_id frm.can_id →
      (∃ text, process_one host LINES unknown frm =
        (unknown,
          [Curses.move (family_slot frm.can_id) 1, Curses.clrtoeol,
           Curses.mvprintw (family_slot frm.can_id) 1 text, Curses.refresh]))
      ∧ render_rows (process_one host LINES unknown frm).2 = [family_slot frm.can_id]
      ∧ 1 ≤ family_slot frm.can_id ∧ family_slot frm.can_id ≤ 7) := by
  constructor
  · intro h
    refine ⟨process_one_unknown host LINES unknown frm h, ?_, ?_⟩
    · rw [process_one_unknown host LINES unknown frm h]
      rcases unknown_frame_trace_shape LINES unknown (toI32 frm.can_id) with e | ⟨tail, e, ht⟩
      · left
        simp [e]
      · right
        refine ⟨tail ++ [Curses.refresh], by simp [e], ?_⟩
        intro op hop
        rcases List.mem_append.mp hop with h1 | h1
        · exact Or.inr (ht op h1)
        · exact Or.inl (List.mem_singleton.mp h1)
    · rw [process_one_unknown host LINES unknown frm h]
      simp only [render_rows_append_refresh]
      exact render_rows_unknown_frame LINES unknown _
  · intro h
    obtain ⟨text, ht⟩ := process_one_known_trace host frm h
    refine ⟨⟨text, ht LINES unknown⟩, ?_, family_slot_range _⟩
    rw [ht LINES unknown]
    rfl

theorem registry_lookup_exact_witness :
    (process_one Endian.little 24 unknown_init ⟨0x80000224, 8, [1, 0, 0, 0, 0, 0, 0, 0]⟩ =
        ((unknown_frame 24 unknown_init (toI32 (0x80000224 : Nat))).1,
          (unknown_frame 24 unknown_init (toI32 (0x80000224 : Nat))).2 ++ [Curses.refresh])
      ∧ ∀ r ∈ render_rows (process_one Endian.little 24 unknown_init
          ⟨0x80000224, 8, [1, 0, 0, 0, 0, 0, 0, 0]⟩).2, r = 24 - 3)
    ∧ render_rows (process_one Endian.little 24 unknown_init
        ⟨0x224, 8, [1, 0, 0, 0, 0, 0, 0, 0]⟩).2 = [4] :=
  ⟨⟨((registry_lookup_exact Endian.little 24 unknown_init
        ⟨0x80000224, 8, [1, 0, 0, 0, 0, 0, 0, 0]⟩).1 (by decide)).1,
    ((registry_lookup_exact Endian.little 24 unknown_init
        ⟨0x80000224, 8, [1, 0, 0, 0, 0, 0, 0, 0]⟩).1 (by decide)).2.2⟩,
   ((registry_lookup_exact Endian.little 24 unknown_init
      ⟨0x224, 8, [1, 0, 0, 0, 0, 0, 0, 0]⟩).2 (by decide)).2.1⟩

end Toyothack
